import Mathlib

/-!
Verification development for the pyethapp command surface (`pyethapp/app.py`):
the block import/export pipeline and the account-unlock procedure.

The shallow embedding below translates the driver code of `app.py` directly.
External collaborators that are not part of the source tree (the `rlp` codec,
`eth_protocol.TransientBlock`, the chain service, the accounts service) are
modelled from the specification's interface descriptions, as noted on each
definition.
-/

set_option maxRecDepth 4096

namespace Pyethapp

/-! ## Binary record decoder

Modelled from the spec (section 4.1): the recursive byte-string/list wire
encoding consumed by `rlp.codec.consume_item(data, i)`, which returns
`(value, next_offset)` or fails.  The `rlp` library itself is not part of the
source tree; the decoder below follows the spec's description of the format:
the byte at the current offset selects short/long byte-string or short/long
list, list payloads are decoded recursively and must be consumed exactly, and
a length prefix inconsistent with the remaining buffer is a decode failure. -/

/-- A decoded record: a leaf byte string or an ordered sequence of records.
Bytes are naturals (each source byte is in `0..255`). -/
inductive Item where
  | str : List Nat → Item
  | list : List Item → Item

/-- Big-endian interpretation of a byte sequence as a natural number. -/
def beToNat (bs : List Nat) : Nat :=
  bs.foldl (fun acc b => acc * 256 + b) 0

/-- Consume a byte-string payload of length `l` from the front of `rest`;
fails if fewer than `l` bytes remain. -/
def strPayload (l : Nat) (rest : List Nat) : Option (Item × List Nat) :=
  if l ≤ rest.length then some (.str (rest.take l), rest.drop l) else none

/-- Consume `ll` length bytes from the front of `rest`, returning the
big-endian length they encode; fails if fewer than `ll` bytes remain. -/
def longLen (ll : Nat) (rest : List Nat) : Option (Nat × List Nat) :=
  if ll ≤ rest.length then some (beToNat (rest.take ll), rest.drop ll) else none

mutual

/-- Fuel-bounded parser for one record at the front of a byte list, returning
the record and the remaining bytes.  Mirrors `consume_length_prefix` /
`consume_payload` of the wire format: tag `< 0x80` is a single-byte string,
`< 0xb8` a short string, `< 0xc0` a long string, `< 0xf8` a short list and
otherwise a long list. -/
def parseItemF : Nat → List Nat → Option (Item × List Nat)
  | 0, _ => none
  | _ + 1, [] => none
  | fuel + 1, b :: rest =>
    if b < 128 then some (.str [b], rest)
    else if b < 184 then strPayload (b - 128) rest
    else if b < 192 then
      match longLen (b - 183) rest with
      | none => none
      | some (l, rest2) => strPayload l rest2
    else if b < 248 then
      if b - 192 ≤ rest.length then
        match parseItemsF fuel (rest.take (b - 192)) with
        | none => none
        | some items => some (.list items, rest.drop (b - 192))
      else none
    else
      match longLen (b - 247) rest with
      | none => none
      | some (l, rest2) =>
        if l ≤ rest2.length then
          match parseItemsF fuel (rest2.take l) with
          | none => none
          | some items => some (.list items, rest2.drop l)
        else none
  termination_by structural fuel _ => fuel

/-- Decode a whole byte list into consecutive records (a list payload). -/
def parseItemsF : Nat → List Nat → Option (List Item)
  | _, [] => some []
  | 0, _ :: _ => none
  | fuel + 1, b :: bs =>
    match parseItemF fuel (b :: bs) with
    | none => none
    | some (it, rem) =>
      match parseItemsF fuel rem with
      | none => none
      | some its => some (it :: its)
  termination_by structural fuel _ => fuel

end

/-- `rlp.codec.consume_item(data, i)`: decode the record starting at byte
offset `i` of `data`, returning it together with the offset one past its last
byte, or `none` on a decode error.  The fuel `2 * data.length + 2` dominates
the recursion depth of any successful parse (every nesting or sequencing step
consumes at least one byte). -/
def consumeItem (data : List Nat) (i : Nat) : Option (Item × Nat) :=
  match parseItemF (2 * data.length + 2) (data.drop i) with
  | none => none
  | some (it, rem) => some (it, data.length - rem.length)

/-! ## Block record adapter

`app.py` (`import_blocks.blocks`) checks
`isinstance(block_data, list) and len(block_data) == 3` and otherwise yields
`None` after a warning; a 3-element list is wrapped as
`eth_protocol.TransientBlock(block_data)`.  `eth_protocol` is not under the
source tree; per the spec (section 4.2) adaptation of a 3-element list
performs no further validation. -/

/-- Modelled from the spec: `eth_protocol.TransientBlock`, an in-memory block
built from a record shaped as the ordered triple
`(header, transaction_list, uncle_list)`. -/
structure TransientBlock where
  header : Item
  transactionList : Item
  uncleList : Item

/-- Adapt a decoded record to a block: succeeds exactly on 3-element lists
(`if not isinstance(block_data, list) or len(block_data) != 3` in the source,
with `TransientBlock` construction adding no further checks per the spec). -/
def adapt : Item → Option TransientBlock
  | .list [h, t, u] => some ⟨h, t, u⟩
  | _ => none

/-! ## Import driver -/

/-- Outcome of walking the raw record stream of a buffer to its end. -/
inductive GenOutcome where
  | ok
  | decodeFatal (byteIndex : Nat)

/-- Fuel-bounded walk of the decoded record stream of `data` starting at byte
offset `i`: the loop `while i < len(data)` of `import_blocks.blocks`.  Returns
the `(offset, record)` pairs decoded in order, and whether the walk reached
the end of the buffer or died on a decode error at some offset (the generator
logs `invalid RLP encoding` with `byte_index=i` and exits there). -/
def rawRecordsF : Nat → List Nat → Nat → List (Nat × Item) × GenOutcome
  | 0, _, _ => ([], .ok)
  | fuel + 1, data, i =>
    if i < data.length then
      match consumeItem data i with
      | none => ([], .decodeFatal i)
      | some (item, j) =>
        let r := rawRecordsF fuel data j
        ((i, item) :: r.1, r.2)
    else ([], .ok)

/-- The full decoded record walk of a buffer (each successful decode advances
the offset by at least one byte, so `data.length + 1` steps always reach the
end of the buffer or a decode error). -/
def rawRecords (data : List Nat) : List (Nat × Item) × GenOutcome :=
  rawRecordsF (data.length + 1) data 0

/-- Result of the first `next(blocks())` call of `import_blocks`: on an empty
buffer the generator is exhausted and `next` raises `StopIteration`; otherwise
the first record is decoded (fatal decode error at offset 0 on failure) and
adapted. -/
inductive FirstYield where
  | stopIteration
  | decodeFatal (byteIndex : Nat)
  | yielded (b : Option TransientBlock)

/-- Decode and adapt the first record of the buffer, as the single
`next(blocks())` call does. -/
def firstYield (data : List Nat) : FirstYield :=
  if 0 < data.length then
    match consumeItem data 0 with
    | none => .decodeFatal 0
    | some (item, _) => .yielded (adapt item)
  else .stopIteration

/-- How one `import` invocation terminates. -/
inductive ImportResult where
  | crashStopIteration
  | fatalDecode (byteIndex : Nat)
  | fatalFirstInvalid
  | fatalUnlinked (newestKnownBlock : Nat) (firstUnknownBlock : Nat)
  | finished

/-- Process exit status of an import outcome: `sys.exit(1)` on every fatal
condition, status 0 on completion, and no explicit exit on the unhandled
`StopIteration` crash (abnormal termination). -/
def importExitStatus : ImportResult → Option Nat
  | .finished => some 0
  | .crashStopIteration => none
  | _ => some 1

/-- Modelled from the spec: the chain service and block header accessors used
by `import_blocks` live outside the source tree (`eth_service.ChainService`,
`eth_protocol`, `ethereum.blocks`).  They are abstracted as a view providing
`knows_block`, the chain's current head number, and the header's hash, parent
hash and block number. -/
structure ChainView (Hash : Type) where
  headerHash : Item → Hash
  headerPrevhash : Item → Hash
  headerNumber : Item → Nat
  knowsBlock : Hash → Bool
  headNumber : Nat

/-- The enqueue/skip loop `for n, block in enumerate(blocks())`: `None` items
produce a `skipping block` warning tagged with the file position `n`; adapted
blocks are enqueued via `add_block` in file order.  Returns the enqueued
`(file position, block)` pairs and the skip-warning positions. -/
def driverGo : Nat → List (Option TransientBlock) → List (Nat × TransientBlock) × List Nat
  | _, [] => ([], [])
  | n, none :: rest =>
    let r := driverGo (n + 1) rest
    (r.1, n :: r.2)
  | n, some b :: rest =>
    let r := driverGo (n + 1) rest
    ((n, b) :: r.1, r.2)

/-- Everything one `import` invocation does that the claims observe: the
enqueued blocks with their file positions, the skip-warning positions, and
the terminal result. -/
structure ImportRun where
  enqueued : List (Nat × TransientBlock)
  skips : List Nat
  result : ImportResult

/-- `import_blocks` of `app.py`: read the whole buffer, take the first block
from the generator (`StopIteration` escapes on an empty buffer), abort fatally
if it is invalid or if neither its hash nor its parent hash is known to the
chain, and otherwise re-walk the full stream, skipping `None` records and
enqueuing adapted blocks in file order, aborting on any decode error at its
byte offset. -/
def import_blocks {Hash : Type} (cv : ChainView Hash) (data : List Nat) : ImportRun :=
  match firstYield data with
  | .stopIteration => ⟨[], [], .crashStopIteration⟩
  | .decodeFatal i => ⟨[], [], .fatalDecode i⟩
  | .yielded none => ⟨[], [], .fatalFirstInvalid⟩
  | .yielded (some fb) =>
    if cv.knowsBlock (cv.headerHash fb.header) || cv.knowsBlock (cv.headerPrevhash fb.header) then
      let recs := (rawRecords data).1
      let d := driverGo 0 (recs.map (fun p => adapt p.2))
      ⟨d.1, d.2,
        match (rawRecords data).2 with
        | .ok => .finished
        | .decodeFatal i => .fatalDecode i⟩
    else ⟨[], [], .fatalUnlinked cv.headNumber (cv.headerNumber fb.header)⟩

/-! ## Driver lemmas -/

theorem driverGo_fst_length (n : Nat) (items : List (Option TransientBlock)) :
    (driverGo n items).1.length = (items.filter Option.isSome).length := by
  induction items generalizing n with
  | nil => simp [driverGo]
  | cons hd tl ih =>
    cases hd with
    | none => simp [driverGo, ih]
    | some b => simp [driverGo, ih]

theorem driverGo_snd_length (n : Nat) (items : List (Option TransientBlock)) :
    (driverGo n items).2.length = (items.filter Option.isNone).length := by
  induction items generalizing n with
  | nil => simp [driverGo]
  | cons hd tl ih =>
    cases hd with
    | none => simp [driverGo, ih]
    | some b => simp [driverGo, ih]

theorem driverGo_fst_map (n : Nat) (items : List (Option TransientBlock)) :
    (driverGo n items).1.map Prod.snd = items.filterMap id := by
  induction items generalizing n with
  | nil => simp [driverGo]
  | cons hd tl ih =>
    cases hd with
    | none => simp [driverGo, ih]
    | some b => simp [driverGo, ih]

/-! ## Concrete fixtures used by the witnesses -/

/-- A chain view that knows every hash (so the linkage check passes). -/
def cvKnowsAll : ChainView Nat :=
  ⟨fun _ => 0, fun _ => 0, fun _ => 0, fun _ => true, 0⟩

/-- A chain view with head number 7 that knows no hash, and reports block
number 42 for every header. -/
def cvKnowsNone : ChainView Nat :=
  ⟨fun _ => 0, fun _ => 1, fun _ => 42, fun _ => false, 7⟩

/-- A buffer mixing records: a valid 3-list block at offset 0, a 2-list at
offset 4, a byte string at offset 7, and a valid 3-list block at offset 8. -/
def dataMixed : List Nat := [195, 1, 2, 3, 194, 4, 5, 6, 195, 7, 8, 9]

/-- The block decoded from the first record of `dataMixed`. -/
def fbMixed : TransientBlock := ⟨.str [1], .str [2], .str [3]⟩

/-! ## Import claims -/

/-- C1: for every buffer whose first record adapts to a block linked to the
chain, the import driver enqueues exactly one block per record that decodes
to a 3-element list, logs exactly one skip warning per record that decodes
successfully but is not a 3-element list, and enqueues the blocks in the same
order as their records appear in the file. -/
theorem import_mixed_counts_and_order {Hash : Type} (cv : ChainView Hash)
    (data : List Nat) (fb : TransientBlock)
    (hfb : firstYield data = .yielded (some fb))
    (hlink : (cv.knowsBlock (cv.headerHash fb.header) ||
              cv.knowsBlock (cv.headerPrevhash fb.header)) = true) :
    (import_blocks cv data).enqueued.length =
      ((rawRecords data).1.filter (fun p => (adapt p.2).isSome)).length ∧
    (import_blocks cv data).skips.length =
      ((rawRecords data).1.filter (fun p => (adapt p.2).isNone)).length ∧
    (import_blocks cv data).enqueued.map Prod.snd =
      (rawRecords data).1.filterMap (fun p => adapt p.2) := by
  unfold import_blocks
  rw [hfb]
  simp only [hlink, if_true]
  refine ⟨?_, ?_, ?_⟩
  · rw [driverGo_fst_length, List.filter_map, List.length_map]
    simp [Function.comp_def]
  · rw [driverGo_snd_length, List.filter_map, List.length_map]
    simp [Function.comp_def]
  · rw [driverGo_fst_map, List.filterMap_map]
    simp [Function.comp_def]

theorem import_mixed_counts_and_order_witness :
    (import_blocks cvKnowsAll dataMixed).enqueued.length =
      ((rawRecords dataMixed).1.filter (fun p => (adapt p.2).isSome)).length ∧
    (import_blocks cvKnowsAll dataMixed).skips.length =
      ((rawRecords dataMixed).1.filter (fun p => (adapt p.2).isNone)).length ∧
    (import_blocks cvKnowsAll dataMixed).enqueued.map Prod.snd =
      (rawRecords dataMixed).1.filterMap (fun p => adapt p.2) :=
  import_mixed_counts_and_order cvKnowsAll dataMixed fbMixed (by rfl) (by rfl)

/-- C2: for every buffer whose first record decodes and adapts to a block
such that neither the block's own hash nor its parent hash is known to the
chain, import aborts with the fatal `unlinked chains` condition and non-zero
exit status before enqueuing any block, reporting the chain's current head
number and the first unknown block's number. -/
theorem import_unlinked_aborts {Hash : Type} (cv : ChainView Hash)
    (data : List Nat) (fb : TransientBlock)
    (hfb : firstYield data = .yielded (some fb))
    (h1 : cv.knowsBlock (cv.headerHash fb.header) = false)
    (h2 : cv.knowsBlock (cv.headerPrevhash fb.header) = false) :
    import_blocks cv data =
      ⟨[], [], .fatalUnlinked cv.headNumber (cv.headerNumber fb.header)⟩ ∧
    importExitStatus (import_blocks cv data).result = some 1 := by
  unfold import_blocks
  rw [hfb]
  simp [h1, h2, importExitStatus]

theorem import_unlinked_aborts_witness :
    import_blocks cvKnowsNone [195, 1, 2, 3] = ⟨[], [], .fatalUnlinked 7 42⟩ ∧
    importExitStatus (import_blocks cvKnowsNone [195, 1, 2, 3]).result = some 1 :=
  import_unlinked_aborts cvKnowsNone [195, 1, 2, 3] fbMixed (by rfl) (by rfl) (by rfl)

/-- C3: for every buffer whose first record decodes successfully but is not a
3-element list, import exits with a non-zero status and enqueues zero
blocks. -/
theorem import_first_invalid_aborts {Hash : Type} (cv : ChainView Hash)
    (data : List Nat)
    (hfb : firstYield data = .yielded none) :
    import_blocks cv data = ⟨[], [], .fatalFirstInvalid⟩ ∧
    importExitStatus (import_blocks cv data).result = some 1 := by
  unfold import_blocks
  rw [hfb]
  simp [importExitStatus]

theorem import_first_invalid_aborts_witness :
    import_blocks cvKnowsAll [194, 4, 5] = ⟨[], [], .fatalFirstInvalid⟩ ∧
    importExitStatus (import_blocks cvKnowsAll [194, 4, 5]).result = some 1 :=
  import_first_invalid_aborts cvKnowsAll [194, 4, 5] (by rfl)

/-- C4: whenever the run's decoding of a record fails at some byte offset,
the import aborts the entire run with a non-zero exit status reporting that
byte offset; this holds both for the first record and for any later record
of the stream being processed. -/
theorem import_decode_failure_aborts {Hash : Type} (cv : ChainView Hash)
    (data : List Nat) :
    (0 < data.length → consumeItem data 0 = none →
      import_blocks cv data = ⟨[], [], .fatalDecode 0⟩ ∧
      importExitStatus (import_blocks cv data).result = some 1) ∧
    (∀ (fb : TransientBlock) (i : Nat),
      firstYield data = .yielded (some fb) →
      (cv.knowsBlock (cv.headerHash fb.header) ||
       cv.knowsBlock (cv.headerPrevhash fb.header)) = true →
      (rawRecords data).2 = .decodeFatal i →
      (import_blocks cv data).result = .fatalDecode i ∧
      importExitStatus (import_blocks cv data).result = some 1) := by
  constructor
  · intro hlen hc
    have hfy : firstYield data = .decodeFatal 0 := by
      simp [firstYield, hlen, hc]
    unfold import_blocks
    rw [hfy]
    simp [importExitStatus]
  · intro fb i hfb hlink hout
    unfold import_blocks
    rw [hfb]
    simp [hlink, hout, importExitStatus]

theorem import_decode_failure_aborts_witness :
    import_blocks cvKnowsAll [184] = ⟨[], [], .fatalDecode 0⟩ ∧
    (import_blocks cvKnowsAll [195, 1, 2, 3, 184]).result = .fatalDecode 4 :=
  ⟨((import_decode_failure_aborts cvKnowsAll [184]).1 (by decide) (by rfl)).1,
   ((import_decode_failure_aborts cvKnowsAll [195, 1, 2, 3, 184]).2
      fbMixed 4 (by rfl) (by rfl) (by rfl)).1⟩

/-- C9: on the empty input buffer the first `next(blocks())` call raises an
unhandled `StopIteration`, so the run terminates abnormally before any
linkage check or enqueue, rather than exiting with status 0 after importing
zero blocks. -/
theorem import_empty_buffer_crashes {Hash : Type} (cv : ChainView Hash) :
    import_blocks cv [] = ⟨[], [], .crashStopIteration⟩ ∧
    importExitStatus (import_blocks cv []).result = none ∧
    (import_blocks cv []).result ≠ .finished := by
  refine ⟨rfl, rfl, ?_⟩
  intro h
  exact ImportResult.noConfusion h

/-! ## Export driver

`export_blocks` of `app.py`: defaults `from_` to 0 and `to` to the chain's
head number, validates the bounds with a distinct fatal message and
`sys.exit(1)` per violated bound, and then, for each `n` in
`xrange(from_, to + 1)`, logs a coarse progress report when
`(n - from_) % 50000 == 0` and writes the raw stored bytes of block `n` to
the sink.  The claims observe the sequence of block numbers written and the
progress-report positions; the raw bytes themselves come from the external
database (`db.get(index.get_block_by_number(n))`) and are opaque here. -/

/-- How one `export` invocation terminates: one distinct fatal condition per
violated bound, or completion. -/
inductive ExportResult where
  | fatalNegative
  | fatalToBeforeFrom
  | fatalToUnknown (headNumber : Nat)
  | done

/-- Process exit status of an export outcome (`sys.exit(1)` on each violated
bound, 0 on completion). -/
def exportExitStatus : ExportResult → Nat
  | .done => 0
  | _ => 1

/-- Everything one `export` invocation does that the claims observe: the
block numbers written to the sink in order, the block numbers at which a
progress report is logged, and the terminal result. -/
structure ExportRun where
  written : List Nat
  progressReports : List Nat
  result : ExportResult

/-- `export_blocks(ctx, from_, to, file)` with the `--from`/`--to` options
(absent options are `None`) and the chain's head number. -/
def export_blocks (from? to? : Option Int) (headNumber : Nat) : ExportRun :=
  let f : Int := from?.getD 0
  let t : Int := to?.getD headNumber
  if f < 0 then ⟨[], [], .fatalNegative⟩
  else if t < f then ⟨[], [], .fatalToBeforeFrom⟩
  else if t > headNumber then ⟨[], [], .fatalToUnknown headNumber⟩
  else
    let a := f.toNat
    let b := t.toNat
    let ns := List.range' a (b + 1 - a)
    ⟨ns, ns.filter (fun n => (n - a) % 50000 == 0), .done⟩

/-! ## Export claims -/

/-- C5: bound validation of export.  For every pair of bounds and every chain
head number: a negative `from` fails with the negative-bound message, `to`
before `from` fails with its own message, `to` beyond the head fails with its
own message reporting the head; each failure exits with non-zero status and
writes nothing to the sink, independently of the chain contents. -/
theorem export_bounds_validation (from? to? : Option Int) (headNumber : Nat) :
    (from?.getD 0 < 0 →
      export_blocks from? to? headNumber = ⟨[], [], .fatalNegative⟩) ∧
    (0 ≤ from?.getD 0 → to?.getD headNumber < from?.getD 0 →
      export_blocks from? to? headNumber = ⟨[], [], .fatalToBeforeFrom⟩) ∧
    (0 ≤ from?.getD 0 → from?.getD 0 ≤ to?.getD headNumber →
      (headNumber : Int) < to?.getD headNumber →
      export_blocks from? to? headNumber = ⟨[], [], .fatalToUnknown headNumber⟩) ∧
    (∀ r, r = export_blocks from? to? headNumber → r.result ≠ .done →
      r.written = [] ∧ exportExitStatus r.result = 1) := by
  refine ⟨?_, ?_, ?_, ?_⟩
  · intro h
    simp only [export_blocks, if_pos h]
  · intro h0 h1
    rw [export_blocks]
    rw [if_neg (by omega), if_pos h1]
  · intro h0 h1 h2
    rw [export_blocks]
    rw [if_neg (by omega), if_neg (by omega), if_pos h2]
  · intro r hr hne
    rw [export_blocks] at hr
    split at hr
    · subst hr; exact ⟨rfl, rfl⟩
    · split at hr
      · subst hr; exact ⟨rfl, rfl⟩
      · split at hr
        · subst hr; exact ⟨rfl, rfl⟩
        · subst hr; exact absurd rfl hne

theorem export_bounds_validation_witness :
    export_blocks (some (-1)) (some 10) 100 = ⟨[], [], .fatalNegative⟩ ∧
    export_blocks (some 5) (some 3) 100 = ⟨[], [], .fatalToBeforeFrom⟩ ∧
    export_blocks (some 0) (some 101) 100 = ⟨[], [], .fatalToUnknown 100⟩ :=
  ⟨(export_bounds_validation (some (-1)) (some 10) 100).1 (by decide),
   (export_bounds_validation (some 5) (some 3) 100).2.1 (by decide) (by decide),
   (export_bounds_validation (some 0) (some 101) 100).2.2.1 (by decide) (by decide)
     (by decide)⟩

/-- Filtering a 50000-wide chunk of consecutive block numbers whose first
element is a multiple of 50000 keeps exactly that first element. -/
theorem chunkFilter (s : Nat) (hs : s % 50000 = 0) :
    (List.range' s 50000).filter (fun n => n % 50000 == 0) = [s] := by
  obtain ⟨q, rfl⟩ := Nat.dvd_of_mod_eq_zero hs
  have h : (List.range' (50000 * q) 50000) =
      50000 * q :: List.range' (50000 * q + 1) 49999 := by
    rw [show (50000 : Nat) = 49999 + 1 from rfl, List.range'_succ]
  rw [h, List.filter_cons]
  rw [if_pos (by simp [Nat.mul_mod_right])]
  have htail : (List.range' (50000 * q + 1) 49999).filter
      (fun n => n % 50000 == 0) = [] := by
    rw [List.filter_eq_nil_iff]
    intro n hn
    rw [List.mem_range'] at hn
    obtain ⟨j, hj, rfl⟩ := hn
    have : 50000 * q + 1 + 1 * j = 50000 * q + (1 + j) := by omega
    rw [this, Nat.mul_add_mod]
    simp only [beq_iff_eq]
    omega
  rw [htail]

/-- C6: for a chain with head number 100000, `export(from=0, to=100000)`
writes exactly 100001 raw block records, one per block number in strictly
increasing order from 0 to 100000, and emits exactly the 3 coarse progress
reports at block numbers 0, 50000 and 100000. -/
theorem export_head100000_scenario :
    (export_blocks (some 0) (some 100000) 100000).result = .done ∧
    (export_blocks (some 0) (some 100000) 100000).written.length = 100001 ∧
    (export_blocks (some 0) (some 100000) 100000).written.Pairwise (· < ·) ∧
    (export_blocks (some 0) (some 100000) 100000).written = List.range 100001 ∧
    (export_blocks (some 0) (some 100000) 100000).progressReports =
      [0, 50000, 100000] := by
  have hw : (export_blocks (some 0) (some 100000) 100000).written =
      List.range' 0 100001 := rfl
  have hsplit : List.range' 0 100001 =
      (List.range' 0 50000 ++ List.range' 50000 50000) ++ List.range' 100000 1 := by
    rw [List.range'_append 0 50000 50000 1, List.range'_append 0 100000 1 1]
  refine ⟨rfl, ?_, ?_, ?_, ?_⟩
  · rw [hw, List.length_range']
  · rw [hw, ← List.range_eq_range']
    exact List.pairwise_lt_range 100001
  · rw [hw, List.range_eq_range']
  · have hp : (export_blocks (some 0) (some 100000) 100000).progressReports =
        (List.range' 0 100001).filter (fun n => (n - 0) % 50000 == 0) := rfl
    rw [hp]
    simp only [Nat.sub_zero]
    rw [hsplit, List.filter_append, List.filter_append]
    rw [chunkFilter 0 (by norm_num), chunkFilter 50000 (by norm_num)]
    rw [List.range'_one]
    rfl

/-! ## Account unlock

`unlock_accounts(account_ids, account_service, max_attempts=3, password=None)`
of `app.py`.  The accounts service (`accounts.py`, not under the source tree)
is abstracted per the spec: `account_service.find` maps an identifier to an
account or fails, and `account.unlock(pw)` succeeds or raises `ValueError`
for a wrong password.  An account is therefore modelled by the set of
passwords its `unlock` accepts, and interactive `click.prompt` responses by a
finite list of entered strings (an exhausted list stands for a user who keeps
entering the empty string, `click`'s prompt default). -/

/-- Modelled from the spec: an account as seen by `unlock_accounts`; `accepts`
is the success predicate of `account.unlock`. -/
structure UAccount where
  accepts : String → Bool

/-- Truthiness test `max_attempts and attempt > max_attempts` of the source:
`None` and `0` are falsy, so they never exhaust the budget. -/
def maxExceeded (maxAtt : Option Nat) (attempt : Nat) : Bool :=
  match maxAtt with
  | none => false
  | some m => if m = 0 then false else decide (m < attempt)

/-- One `click.prompt` call against the modelled response list. -/
def promptTake : List String → String × List String
  | [] => ("", [])
  | s :: rest => (s, rest)

/-- Result of the `while True` retry loop for one account: unlock succeeded
after `calls` unlock attempts with the given responses left; or the attempt
budget was exhausted after `calls` attempts (the source logs
`Too many unlock attempts` with `attempts=attemptReported` and exits with
status 1); or the loop never terminates (unbounded budget, no accepted
password). -/
inductive LoopRes where
  | success (calls : Nat) (rest : List String)
  | fatalTooMany (calls : Nat) (attemptReported : Nat)
  | stall

/-- The `while True` body: increment the attempt counter, try
`account.unlock(pw)`, and on `ValueError` either exit fatally (budget
exceeded) or prompt again.  Fuel-bounded; the fuel chosen by `unlockOne`
dominates every terminating run. -/
def unlockLoop (accepts : String → Bool) (maxAtt : Option Nat) :
    Nat → Nat → String → List String → Nat → LoopRes
  | 0, _, _, _, _ => .stall
  | fuel + 1, attempt, pw, inputs, calls =>
    if accepts pw then .success (calls + 1) inputs
    else if maxExceeded maxAtt (attempt + 1) then
      .fatalTooMany (calls + 1) (attempt + 1)
    else
      unlockLoop accepts maxAtt fuel (attempt + 1) (promptTake inputs).1
        (promptTake inputs).2 (calls + 1)

/-- Fuel that dominates the retry loop: with an active budget `m` the loop
runs at most `m` iterations before exiting fatally; without one it can only
terminate while responses remain (afterwards every prompt yields the empty
string again, so a non-accepted empty string loops forever: `stall`). -/
def loopFuel (maxAtt : Option Nat) (inputs : List String) : Nat :=
  match maxAtt with
  | some m => if m = 0 then inputs.length + 2 else m + 2
  | none => inputs.length + 2

/-- The per-account part of the interactive path: one initial prompt
(`Password for account {id} (attempt 1/...)`), then the retry loop starting
with `attempt = 1`. -/
def unlockOne (acct : UAccount) (maxAtt : Option Nat) (inputs : List String) :
    LoopRes :=
  unlockLoop acct.accepts maxAtt (loopFuel maxAtt inputs) 1
    (promptTake inputs).1 (promptTake inputs).2 0

/-- How one `unlock_accounts` call terminates: `sys.exit(1)` on an unknown
identifier during resolution, `sys.exit(1)` on an exhausted attempt budget,
normal return, or a never-terminating interactive loop. -/
inductive UnlockOutcome where
  | fatalUnknownId (id : String)
  | fatalTooMany (accountIndex : Nat) (attemptReported : Nat)
  | completed
  | stalled

/-- Whether the call makes the process exit, and with which status: the fatal
conditions exit with status 1; a completed call just returns to its caller. -/
def exitsProcessWith : UnlockOutcome → Option Nat
  | .fatalUnknownId _ => some 1
  | .fatalTooMany _ _ => some 1
  | .completed => none
  | .stalled => none

/-- Everything one `unlock_accounts` call does that the claims observe: the
number of `unlock` calls per account reached (in request order), the indices
of accounts left unlocked, the identifiers reported in
`Could not unlock account with password from file` errors, and the terminal
outcome. -/
structure UnlockRun where
  attempts : List Nat
  unlocked : List Nat
  failLogs : List String
  outcome : UnlockOutcome

/-- The resolution loop: look up every requested identifier with
`account_service.find` before any unlock attempt; the first unknown
identifier aborts with `could not find account`. -/
def resolveAll (account_ids : List String) (find? : String → Option UAccount) :
    Except String (List UAccount) :=
  match account_ids with
  | [] => .ok []
  | id :: rest =>
    match find? id with
    | none => .error id
    | some a =>
      match resolveAll rest find? with
      | .error bad => .error bad
      | .ok acs => .ok (a :: acs)

/-- The shared-password path: apply the one password to every resolved
account in order; a failing account is logged (`log.fatal`, but with no
`sys.exit`) and the loop continues; the function then returns. -/
def sharedGo (password : String) : Nat → List (String × UAccount) → UnlockRun
  | _, [] => ⟨[], [], [], .completed⟩
  | idx, (id, a) :: rest =>
    let r := sharedGo password (idx + 1) rest
    if a.accepts password then
      ⟨1 :: r.attempts, idx :: r.unlocked, r.failLogs, r.outcome⟩
    else
      ⟨1 :: r.attempts, r.unlocked, id :: r.failLogs, r.outcome⟩

/-- The interactive path: process accounts in request order, prompting and
retrying per account; an exhausted budget halts the whole procedure
immediately (accounts after it are never attempted). -/
def interactiveGo (maxAtt : Option Nat) :
    Nat → List UAccount → List String → UnlockRun
  | _, [], _ => ⟨[], [], [], .completed⟩
  | idx, a :: rest, inputs =>
    match unlockOne a maxAtt inputs with
    | .success calls inputs2 =>
      let r := interactiveGo maxAtt (idx + 1) rest inputs2
      ⟨calls :: r.attempts, idx :: r.unlocked, r.failLogs, r.outcome⟩
    | .fatalTooMany calls att => ⟨[calls], [], [], .fatalTooMany idx att⟩
    | .stall => ⟨[], [], [], .stalled⟩

/-- `unlock_accounts` of `app.py`: resolve all identifiers first, then either
apply the shared password to every account (non-fatal per-account failures)
or run the interactive bounded-retry loop per account. -/
def unlock_accounts (account_ids : List String)
    (find? : String → Option UAccount) (maxAtt : Option Nat)
    (password : Option String) (inputs : List String) : UnlockRun :=
  match resolveAll account_ids find? with
  | .error bad => ⟨[], [], [], .fatalUnknownId bad⟩
  | .ok accounts =>
    match password with
    | some pw => sharedGo pw 0 (account_ids.zip accounts)
    | none => interactiveGo maxAtt 0 accounts inputs

/-! ## Unlock lemmas and claims -/

theorem resolveAll_ok_length (ids : List String)
    (find? : String → Option UAccount) (accounts : List UAccount)
    (h : resolveAll ids find? = .ok accounts) :
    accounts.length = ids.length := by
  induction ids generalizing accounts with
  | nil =>
    rw [resolveAll] at h
    injection h with h
    subst h
    rfl
  | cons id rest ih =>
    rw [resolveAll] at h
    cases hf : find? id with
    | none => rw [hf] at h; cases h
    | some a =>
      rw [hf] at h
      cases hr : resolveAll rest find? with
      | error bad => rw [hr] at h; cases h
      | ok acs =>
        rw [hr] at h
        injection h with h
        subst h
        simp [ih acs hr]

theorem sharedGo_spec (pw : String) (idx : Nat)
    (pairs : List (String × UAccount)) :
    (sharedGo pw idx pairs).outcome = .completed ∧
    (sharedGo pw idx pairs).attempts = List.replicate pairs.length 1 ∧
    (sharedGo pw idx pairs).failLogs =
      pairs.filterMap (fun p => if p.2.accepts pw then none else some p.1) := by
  induction pairs generalizing idx with
  | nil => exact ⟨rfl, rfl, rfl⟩
  | cons hd tl ih =>
    obtain ⟨h1, h2, h3⟩ := ih (idx + 1)
    by_cases hacc : hd.2.accepts pw = true
    · simp [sharedGo, hacc, h1, h2, h3, List.replicate_succ]
    · simp only [Bool.not_eq_true] at hacc
      simp [sharedGo, hacc, h1, h2, h3, List.replicate_succ]

theorem resolveAll_error_of_unknown (ids : List String)
    (find? : String → Option UAccount) (badId : String)
    (hmem : badId ∈ ids) (hbad : find? badId = none) :
    ∃ bad, resolveAll ids find? = .error bad ∧ find? bad = none ∧ bad ∈ ids := by
  induction ids with
  | nil => cases hmem
  | cons id rest ih =>
    rw [resolveAll]
    cases hf : find? id with
    | none => exact ⟨id, rfl, hf, List.mem_cons_self id rest⟩
    | some a =>
      have hmem2 : badId ∈ rest := by
        cases hmem with
        | head => rw [hbad] at hf; cases hf
        | tail _ h => exact h
      obtain ⟨bad, h1, h2, h3⟩ := ih hmem2
      rw [h1]
      exact ⟨bad, rfl, h2, List.mem_cons_of_mem id h3⟩

/-- C7: interactive path (no password), `max_attempts = 3`, a run over
account A then account B (then possibly further accounts, all resolvable)
where A's correct password is entered at the 2nd prompt and all three of B's
entries are wrong: A ends unlocked, B is given exactly 3 prompts and 3 unlock
attempts, the procedure halts immediately after B's 3rd failed attempt with a
non-zero process exit, and no unlock attempt is made on any account after
B. -/
theorem unlock_interactive_scenario
    (idA idB : String) (moreIds : List String)
    (aA aB : UAccount) (moreAccts : List UAccount)
    (find? : String → Option UAccount)
    (p1 p2 b1 b2 b3 : String) (restInputs : List String)
    (hres : resolveAll (idA :: idB :: moreIds) find? =
      .ok (aA :: aB :: moreAccts))
    (hA1 : aA.accepts p1 = false) (hA2 : aA.accepts p2 = true)
    (hB1 : aB.accepts b1 = false) (hB2 : aB.accepts b2 = false)
    (hB3 : aB.accepts b3 = false) :
    unlock_accounts (idA :: idB :: moreIds) find? (some 3) none
        (p1 :: p2 :: b1 :: b2 :: b3 :: restInputs) =
      ⟨[2, 3], [0], [], .fatalTooMany 1 4⟩ ∧
    exitsProcessWith (UnlockOutcome.fatalTooMany 1 4) = some 1 := by
  refine ⟨?_, rfl⟩
  unfold unlock_accounts
  rw [hres]
  have hA : unlockOne aA (some 3) (p1 :: p2 :: b1 :: b2 :: b3 :: restInputs) =
      .success 2 (b1 :: b2 :: b3 :: restInputs) := by
    simp [unlockOne, loopFuel, unlockLoop, promptTake, maxExceeded, hA1, hA2]
  have hB : unlockOne aB (some 3) (b1 :: b2 :: b3 :: restInputs) =
      .fatalTooMany 3 4 := by
    simp [unlockOne, loopFuel, unlockLoop, promptTake, maxExceeded, hB1, hB2,
      hB3]
  simp [interactiveGo, hA, hB]

/-- C8: when a single password is supplied up front, it is applied to every
resolved account in order (one unlock call per account); each account it
fails to unlock is reported individually, but the procedure continues to the
remaining accounts and returns without exiting the process. -/
theorem unlock_shared_password_nonfatal (ids : List String)
    (find? : String → Option UAccount) (accounts : List UAccount)
    (pw : String) (maxAtt : Option Nat) (inputs : List String)
    (hres : resolveAll ids find? = .ok accounts) :
    (unlock_accounts ids find? maxAtt (some pw) inputs).outcome = .completed ∧
    exitsProcessWith
      (unlock_accounts ids find? maxAtt (some pw) inputs).outcome = none ∧
    (unlock_accounts ids find? maxAtt (some pw) inputs).attempts =
      List.replicate ids.length 1 ∧
    (unlock_accounts ids find? maxAtt (some pw) inputs).failLogs =
      (ids.zip accounts).filterMap
        (fun p => if p.2.accepts pw then none else some p.1) := by
  have hlen := resolveAll_ok_length ids find? accounts hres
  have hzip : (ids.zip accounts).length = ids.length := by
    rw [List.length_zip, hlen, Nat.min_self]
  obtain ⟨h1, h2, h3⟩ := sharedGo_spec pw 0 (ids.zip accounts)
  unfold unlock_accounts
  rw [hres]
  refine ⟨h1, ?_, ?_, h3⟩
  · rw [h1]; rfl
  · rw [h2, hzip]

/-- C10: `unlock_accounts` resolves every requested identifier before making
any unlock attempt, so if any identifier in the list is unknown — even the
last one — the process exits with non-zero status, with no unlock attempt
made and no account unlocked at all. -/
theorem unlock_unknown_id_no_attempts (ids : List String)
    (find? : String → Option UAccount) (maxAtt : Option Nat)
    (password : Option String) (inputs : List String) (badId : String)
    (hmem : badId ∈ ids) (hbad : find? badId = none) :
    ∃ bad, find? bad = none ∧ bad ∈ ids ∧
      unlock_accounts ids find? maxAtt password inputs =
        ⟨[], [], [], .fatalUnknownId bad⟩ ∧
      exitsProcessWith (UnlockOutcome.fatalUnknownId bad) = some 1 := by
  obtain ⟨bad, h1, h2, h3⟩ :=
    resolveAll_error_of_unknown ids find? badId hmem hbad
  refine ⟨bad, h2, h3, ?_, rfl⟩
  unfold unlock_accounts
  rw [h1]

/-! ## Unlock witnesses -/

/-- Account whose password is `ca`. -/
def acctA : UAccount := ⟨fun s => s == "ca"⟩

/-- Account whose password is `cb`. -/
def acctB : UAccount := ⟨fun s => s == "cb"⟩

/-- A registry resolving identifiers `A` and `B` only. -/
def findAB : String → Option UAccount :=
  fun id => if id == "A" then some acctA else
    if id == "B" then some acctB else none

theorem unlock_interactive_scenario_witness :
    unlock_accounts ["A", "B"] findAB (some 3) none
        ["x", "ca", "w", "w", "w"] =
      ⟨[2, 3], [0], [], .fatalTooMany 1 4⟩ ∧
    exitsProcessWith (UnlockOutcome.fatalTooMany 1 4) = some 1 :=
  unlock_interactive_scenario "A" "B" [] acctA acctB [] findAB
    "x" "ca" "w" "w" "w" [] (by rfl) (by rfl) (by rfl) (by rfl) (by rfl)
    (by rfl)

theorem unlock_shared_password_nonfatal_witness :
    (unlock_accounts ["A", "B"] findAB (some 3) (some "ca") []).outcome =
      .completed ∧
    exitsProcessWith
      (unlock_accounts ["A", "B"] findAB (some 3) (some "ca") []).outcome =
      none ∧
    (unlock_accounts ["A", "B"] findAB (some 3) (some "ca") []).attempts =
      List.replicate 2 1 ∧
    (unlock_accounts ["A", "B"] findAB (some 3) (some "ca") []).failLogs =
      (["A", "B"].zip [acctA, acctB]).filterMap
        (fun p => if p.2.accepts "ca" then none else some p.1) :=
  unlock_shared_password_nonfatal ["A", "B"] findAB [acctA, acctB] "ca"
    (some 3) [] (by rfl)

theorem unlock_unknown_id_no_attempts_witness :
    ∃ bad, findAB bad = none ∧ bad ∈ ["A", "Z"] ∧
      unlock_accounts ["A", "Z"] findAB (some 3) none ["ca"] =
        ⟨[], [], [], .fatalUnknownId bad⟩ ∧
      exitsProcessWith (UnlockOutcome.fatalUnknownId bad) = some 1 :=
  unlock_unknown_id_no_attempts ["A", "Z"] findAB (some 3) none ["ca"] "Z"
    (by simp) (by rfl)

end Pyethapp
